import Mathlib

/-!
Shallow embedding of `src/main.py` (Klinex - Mac File Cleaner).

The embedding models, faithfully to the Python source:
- the scanner `get_biggest_files` (os.walk with in-place pruning of excluded
  directory prefixes, strict size filter, stable descending sort, top-K cut);
- the oracle-response parser `get_file_safety_suggestion`;
- the concurrent analysis stage (dispatch with existence re-check, results
  collected in completion order via `concurrent.futures.as_completed`);
- `delete_file_to_trash` and the two delete handlers together with the
  session state (`scanned_files`, `selected_files`, `space_liberated`).

External effects are parameters: the oracle is a function
`String → Except String String` (raw response text or raised exception),
file existence is `String → Bool`, and the trash primitive is
`String → Except String Nat` (freed byte count or error message).

Python string primitives (`startswith`, `split`, `strip`, `lower`, `in`)
are implemented by structural recursion over the character list of the
string, so that every definition evaluates inside the kernel.
-/

/-- Python `s.startswith(p)`. -/
def strStartsWith (s p : String) : Bool := p.data.isPrefixOf s.data

/-- Python substring containment `pat in s` over character lists. -/
def charsContain (s pat : List Char) : Bool :=
  match s with
  | [] => pat.isEmpty
  | _ :: rest => pat.isPrefixOf s || charsContain rest pat

/-- Python substring containment `pat in s`. -/
def strContains (s pat : String) : Bool := charsContain s.data pat.data

/-- The suffix of `s` after the first occurrence of `sep` (none if `sep`
does not occur). Scans left to right like Python `str.split`. -/
def afterFirst (sep : List Char) : List Char → Option (List Char)
  | [] => if sep.isEmpty then some [] else none
  | c :: s =>
      if sep.isPrefixOf (c :: s) then some ((c :: s).drop sep.length)
      else afterFirst sep s

/-- The prefix of `s` up to the first occurrence of `sep` (all of `s` if
`sep` does not occur). -/
def beforeFirst (sep : List Char) : List Char → List Char
  | [] => []
  | c :: s => if sep.isPrefixOf (c :: s) then [] else c :: beforeFirst sep s

/-- Python `line.split(sep)[1]`: the piece between the first and the second
occurrence of `sep` (total; `""` when `sep` does not occur, a case the
source guards by `line.startswith(sep)`). -/
def splitPart1 (l sep : String) : String :=
  match afterFirst sep.data l.data with
  | some rest => ⟨beforeFirst sep.data rest⟩
  | none => ""

/-- Python `line.split(sep, 1)[1]` for a line that starts with `sep`:
the remainder of the line after the leading separator. -/
def splitRest (l sep : String) : String := ⟨l.data.drop sep.data.length⟩

/-- Python `text.split('\n')` over character lists. -/
def splitNl : List Char → List (List Char)
  | [] => [[]]
  | c :: s =>
      if c = '\n' then [] :: splitNl s
      else
        match splitNl s with
        | h :: t => (c :: h) :: t
        | [] => [[c]]

/-- Python `text.split('\n')`. -/
def strLines (s : String) : List String := (splitNl s.data).map (fun cs => ⟨cs⟩)

/-- Python `s.strip()`: drop leading and trailing whitespace. -/
def strTrim (s : String) : String :=
  ⟨((s.data.dropWhile Char.isWhitespace).reverse.dropWhile Char.isWhitespace).reverse⟩

/-- Python `s.lower()` (ASCII lowering, as the source only compares ASCII
category words). -/
def strLower (s : String) : String := ⟨s.data.map Char.toLower⟩

/-- A scanned file entry, as the Python dict
`{'path': ..., 'size': ...}` later extended with the keys
`'ai_suggestion'` and `'color_code'` by the analysis stage. -/
structure FileRec where
  path : String
  size : Nat
  ai_suggestion : Option String := none
  color_code : Option String := none
deriving DecidableEq

/-- The fixed exclusion list `excluded_dirs_prefixes` of `get_biggest_files`
(`main.py` lines 101-109), with `Path.home()` abstracted as `home`. -/
def excluded_dirs_prefixes (home : String) : List String :=
  ["/Applications", "/System", "/Library", "/usr", "/bin", "/sbin",
   "/cores", "/dev", "/etc", "/net", "/private", "/tmp", "/var",
   home ++ "/Library/Caches",
   home ++ "/Library/Containers",
   home ++ "/Library/Application Support",
   home ++ "/Library/Group Containers"]

/-- The pruning decision of the walk loop (`main.py` line 126):
`any(current_dir_path.startswith(prefix) for prefix in excluded_dirs_prefixes)`. -/
def shouldPrune (rules : List String) (dirPath : String) : Bool :=
  rules.any (fun p => strStartsWith dirPath p)

/-- A directory tree, the abstract input of `os.walk`. Symbolic links are
never followed by the walk (`followlinks=False`), so they are absent. -/
inductive FSEntry where
  | file (name : String) (size : Nat)
  | dir (name : String) (children : List FSEntry)

/-- `os.path.join root name` for the walk (root does not end in a slash). -/
def joinPath (root name : String) : String := root ++ "/" ++ name

/-- The file records collected while visiting one directory of the walk
(`main.py` lines 132-138): every regular file with `size > minBytes`
(strict, `minBytes = min_size_mb * 1024 * 1024`). -/
def dirFiles (path : String) (minBytes : Nat) (children : List FSEntry) : List FileRec :=
  children.filterMap fun e =>
    match e with
    | .file n s => if s > minBytes then some { path := joinPath path n, size := s } else none
    | .dir _ _ => none

/-- The recursive part of `os.walk` over the children of a visited directory
(`main.py` lines 119-138): a subdirectory whose joined path matches an
exclusion prefix is removed from `dirs` before descent; a kept subdirectory
contributes its own qualifying files and then its recursive walk, in order. -/
def walkList (rules : List String) (minBytes : Nat) (path : String) :
    List FSEntry → List FileRec
  | [] => []
  | .file _ _ :: es => walkList rules minBytes path es
  | .dir n cs :: es =>
      (if shouldPrune rules (joinPath path n) then []
       else dirFiles (joinPath path n) minBytes cs ++
            walkList rules minBytes (joinPath path n) cs) ++
      walkList rules minBytes path es

/-- All qualifying file records produced by walking `start` (whose children
are `children`): the start directory itself is visited unconditionally, the
pruning test is applied only to subdirectories encountered below it. -/
def os_walk_files (rules : List String) (minBytes : Nat)
    (start : String) (children : List FSEntry) : List FileRec :=
  dirFiles start minBytes children ++ walkList rules minBytes start children

/-- Stable insertion into a descending-by-size list: the new element `a`
(earlier in the original list than everything in `l`) goes before the first
element whose size does not exceed `a.size`. -/
def insertDesc (a : FileRec) : List FileRec → List FileRec
  | [] => [a]
  | b :: l => if b.size ≤ a.size then a :: b :: l else b :: insertDesc a l

/-- Python `file_list.sort(key=lambda x: x['size'], reverse=True)`
(`main.py` line 162): `list.sort` is a stable sort, and with `reverse=True`
it orders descending by the key while keeping equal-key elements in their
original relative order. A stable descending sort by a fixed key is a
unique function of the input list; it is realised here as a stable
insertion sort. -/
def sortBySizeDesc : List FileRec → List FileRec
  | [] => []
  | x :: xs => insertDesc x (sortBySizeDesc xs)

/-- `get_biggest_files` (`main.py` lines 91-163): walk, stable descending
sort by size, then `file_list[:num_files]`. -/
def get_biggest_files (home start : String) (children : List FSEntry)
    (num_files : Nat := 50) (min_size_mb : Nat := 50) : List FileRec :=
  let file_list := os_walk_files (excluded_dirs_prefixes home)
    (min_size_mb * 1024 * 1024) start children
  (sortBySizeDesc file_list).take num_files

/-- The response parsing of `get_file_safety_suggestion`
(`main.py` lines 201-237). The oracle call is abstracted as its outcome:
`.error e` when `generate_content` (or anything else in the `try` body)
raises, `.ok raw` when it returns response text `raw`.
Returns `(suggestion, color_code)`. -/
def get_file_safety_suggestion (resp : Except String String) : String × String :=
  match resp with
  | .error e => ("Gemini API Error: " ++ e ++ ". Defaulting to uncertain.", "orange")
  | .ok raw =>
    let text_response := strTrim raw
    let lines := strLines text_response
    let color_match : Option String :=
      (lines.find? (fun l => strStartsWith l "Color:")).map
        (fun l => strLower (strTrim (splitPart1 l "Color:")))
    let reason_match : Option String :=
      (lines.find? (fun l => strStartsWith l "Reason:")).map
        (fun l => strTrim (splitRest l "Reason:"))
    match color_match, reason_match with
    | some c, some r =>
      -- Python truthiness: `if color_match and reason_match` is false
      -- when either is None or the empty string.
      if c = "" || r = "" then
        ("AI output format mismatch: " ++ text_response, "orange")
      else if strContains c "red" then (r, "red")
      else if strContains c "orange" then (r, "orange")
      else if strContains c "yellow" then (r, "yellow")
      else if strContains c "green" then (r, "green")
      else ("AI output unparseable: " ++ text_response, "orange")
    | _, _ => ("AI output format mismatch: " ++ text_response, "orange")

/-- A returned oracle response is malformed when the two-line parse of
`get_file_safety_suggestion` cannot extract a category from it: the
`Color:`/`Reason:` lines are missing or empty, or the `Color:` text
contains none of the recognized category tokens. -/
def responseMalformed (raw : String) : Bool :=
  match (strLines (strTrim raw)).find? (fun l => strStartsWith l "Color:"),
        (strLines (strTrim raw)).find? (fun l => strStartsWith l "Reason:") with
  | some lc, some lr =>
    let c := strLower (strTrim (splitPart1 lc "Color:"))
    let r := strTrim (splitRest lr "Reason:")
    c = "" || r = "" ||
      (!strContains c "red" && !strContains c "orange" &&
       !strContains c "yellow" && !strContains c "green")
  | _, _ => true

/-- The failure modes of one oracle invocation, following the spec's
taxonomy (7b): the call raises or times out (outcome `.error`), or it
returns malformed output from which no category can be parsed. -/
def oracleInvocationFails : Except String String → Bool
  | .error _ => true
  | .ok raw => responseMalformed raw

/-- Spec definition, for comparison with `shouldPrune` (spec 4.1: "Prefix
match is exact-path-segment based, not substring"): a rule matches the
directory itself or any path strictly below it, segment by segment. -/
def shouldPruneSegments (rules : List String) (dirPath : String) : Bool :=
  rules.any (fun p => dirPath == p || strStartsWith dirPath (p ++ "/"))

/-- The dispatch loop of the analysis stage (`main.py` lines 355-367):
an entry is submitted to the worker pool only if its file still exists
(`Path(file_path_str).exists()`), in the order of `scanned_files`; a
vanished entry is skipped (`continue`) and never submitted. -/
def dispatched (ex : String → Bool) (files : List FileRec) : List FileRec :=
  files.filter (fun f => ex f.path)

/-- The annotation a completed worker attaches to its original dict
(`main.py` lines 373-375): the worker computes
`get_file_safety_suggestion(file_path_str, gemini_model)` and the collector
stores the pair into `'ai_suggestion'` and `'color_code'`. -/
def annotateFile (oracle : String → Except String String) (f : FileRec) : FileRec :=
  { f with ai_suggestion := some (get_file_safety_suggestion (oracle f.path)).1,
           color_code := some (get_file_safety_suggestion (oracle f.path)).2 }

/-- The collection loop over `concurrent.futures.as_completed(futures)`
(`main.py` lines 370-386): `as_completed` yields the submitted futures in
completion order — an arbitrary permutation `completed` of the dispatched
entries — and each completed entry is appended to `analyzed_files_temp`
in that order; `scanned_files` is then replaced by this list. -/
def analyzed_files (oracle : String → Except String String)
    (completed : List FileRec) : List FileRec :=
  completed.map (annotateFile oracle)

/-- Python `Path(p).name`: the final path component. -/
def pathBase (p : String) : String := ⟨(p.data.reverse.takeWhile (fun c => c ≠ '/')).reverse⟩

/-- `delete_file_to_trash` (`main.py` lines 242-253). The stat plus
`send2trash` pair is abstracted as `trashOp : String → Except String Nat`:
`.ok size` when the size is captured and the move succeeds, `.error m`
when either step raises (file not found, I/O error, ...), with `m` the
formatted error message of the corresponding `except` branch.
Returns `(success, message, size_bytes)`. -/
def delete_file_to_trash (trashOp : String → Except String Nat) (p : String) :
    Bool × String × Nat :=
  match trashOp p with
  | .ok size => (true, "Moved to Trash: " ++ pathBase p, size)
  | .error m => (false, m, 0)

/-- The mutable session state of the app (`st.session_state`):
`scanned_files`, `selected_files` (a set of paths, modelled as a list
without duplicates being relevant: discard removes every occurrence),
and `space_liberated`. -/
structure RunState where
  scanned_files : List FileRec
  selected_files : List String
  space_liberated : Nat
deriving DecidableEq

/-- Python `set.discard`: remove the path from the selection. -/
def discardPath (sel : List String) (p : String) : List String :=
  sel.filter (fun q => q ≠ p)

/-- The scan button handler (`main.py` lines 318-333): clears
`scanned_files` and `selected_files`, resets `space_liberated` to `0`, and
runs `get_biggest_files` over the configured root. -/
def start_scan (home scan_path : String) (children : List FSEntry)
    (num_files min_size_mb : Nat) (_st : RunState) : RunState :=
  { scanned_files := get_biggest_files home scan_path children num_files min_size_mb,
    selected_files := [],
    space_liberated := 0 }

/-- One iteration of the bulk-delete loop (`main.py` lines 432-446), acting
on the accumulator `(num_deleted, total_size_deleted, selected_files)`:
if the file still exists, attempt the trash move — on success count it,
add its size and discard its path from the selection; on failure leave the
selection untouched; if the file no longer exists, discard its path. -/
def bulkStep (ex : String → Bool) (trashOp : String → Except String Nat)
    (acc : Nat × Nat × List String) (f : FileRec) : Nat × Nat × List String :=
  if ex f.path then
    match delete_file_to_trash trashOp f.path with
    | (true, _, size) => (acc.1 + 1, acc.2.1 + size, discardPath acc.2.2 f.path)
    | (false, _, _) => acc
  else (acc.1, acc.2.1, discardPath acc.2.2 f.path)

/-- The bulk-delete button handler (`main.py` lines 418-464). With an empty
selection nothing happens. Otherwise the selected entries are processed in
`scanned_files` order; afterwards `space_liberated` is increased by the
accumulated `total_size_deleted` (line 449, unconditionally), and — only
when at least one file was deleted — `scanned_files` is replaced by
`[f for f in scanned_files if f['path'] not in selected_files]`
(lines 457-461), evaluated against the selection as it stands after the
loop's discards. -/
def bulk_delete (ex : String → Bool) (trashOp : String → Except String Nat)
    (st : RunState) : RunState :=
  if st.selected_files.isEmpty then st
  else
    let files_to_delete_info :=
      st.scanned_files.filter (fun f => st.selected_files.contains f.path)
    let res := files_to_delete_info.foldl (bulkStep ex trashOp) (0, 0, st.selected_files)
    let sel := res.2.2
    let space := st.space_liberated + res.2.1
    if res.1 > 0 then
      { scanned_files := st.scanned_files.filter (fun f => !(sel.contains f.path)),
        selected_files := sel,
        space_liberated := space }
    else
      { st with selected_files := sel, space_liberated := space }

/-- The per-row delete button handler (`main.py` lines 504-516) for the row
at index `i`: on success, add the freed size to `space_liberated`, remove
the row (`[f for j, f in enumerate(scanned_files) if j != i]`) and discard
its path from the selection; on failure, change nothing. -/
def individual_delete (trashOp : String → Except String Nat) (i : Nat)
    (st : RunState) : RunState :=
  match st.scanned_files[i]? with
  | none => st
  | some f =>
    match delete_file_to_trash trashOp f.path with
    | (true, _, size) =>
        { scanned_files := st.scanned_files.eraseIdx i,
          selected_files := discardPath st.selected_files f.path,
          space_liberated := st.space_liberated + size }
    | (false, _, _) => st

/-! ## Theorems -/

theorem mem_insertDesc {f a : FileRec} {l : List FileRec} :
    f ∈ insertDesc a l ↔ f = a ∨ f ∈ l := by
  induction l with
  | nil => simp [insertDesc]
  | cons b l ih =>
    by_cases h : b.size ≤ a.size
    · simp [insertDesc, h]
    · simp [insertDesc, h, ih]
      tauto

theorem insertDesc_perm (a : FileRec) (l : List FileRec) :
    (insertDesc a l).Perm (a :: l) := by
  induction l with
  | nil => simp [insertDesc]
  | cons b l ih =>
    by_cases h : b.size ≤ a.size
    · simp [insertDesc, h]
    · simp only [insertDesc, if_neg h]
      exact (ih.cons b).trans (List.Perm.swap a b l)

theorem sortBySizeDesc_perm (l : List FileRec) : (sortBySizeDesc l).Perm l := by
  induction l with
  | nil => simp [sortBySizeDesc]
  | cons x xs ih =>
    simp only [sortBySizeDesc]
    exact (insertDesc_perm x (sortBySizeDesc xs)).trans (ih.cons x)

theorem pairwise_insertDesc {a : FileRec} {l : List FileRec}
    (h : l.Pairwise fun x y => y.size ≤ x.size) :
    (insertDesc a l).Pairwise fun x y => y.size ≤ x.size := by
  induction l with
  | nil => simp [insertDesc]
  | cons b l ih =>
    rw [List.pairwise_cons] at h
    obtain ⟨hb, hl⟩ := h
    by_cases hba : b.size ≤ a.size
    · simp only [insertDesc, if_pos hba]
      rw [List.pairwise_cons]
      refine ⟨?_, List.pairwise_cons.mpr ⟨hb, hl⟩⟩
      intro y hy
      rcases List.mem_cons.mp hy with rfl | hyl
      · exact hba
      · exact Nat.le_trans (hb y hyl) hba
    · simp only [insertDesc, if_neg hba]
      rw [List.pairwise_cons]
      refine ⟨?_, ih hl⟩
      intro y hy
      rcases mem_insertDesc.mp hy with rfl | hyl
      · omega
      · exact hb y hyl

theorem sortBySizeDesc_sorted (l : List FileRec) :
    (sortBySizeDesc l).Pairwise fun x y => y.size ≤ x.size := by
  induction l with
  | nil => simp [sortBySizeDesc]
  | cons x xs ih => exact pairwise_insertDesc ih

theorem filter_insertDesc (a : FileRec) (l : List FileRec) (s : Nat) :
    (insertDesc a l).filter (fun f => f.size == s) =
      (if a.size == s then [a] else []) ++ l.filter (fun f => f.size == s) := by
  induction l with
  | nil => by_cases h : (a.size == s) <;> simp [insertDesc, List.filter_cons, h]
  | cons b l ih =>
    by_cases hba : b.size ≤ a.size
    · simp only [insertDesc, if_pos hba]
      by_cases has : (a.size == s) <;> simp [List.filter_cons, has]
    · simp only [insertDesc, if_neg hba]
      by_cases hbs : (b.size == s)
      · by_cases has : (a.size == s)
        · exfalso
          have h1 : a.size = s := by simpa using has
          have h2 : b.size = s := by simpa using hbs
          omega
        · simp [List.filter_cons, hbs, has, ih]
      · simp [List.filter_cons, hbs, ih]

theorem sortBySizeDesc_filter (l : List FileRec) (s : Nat) :
    (sortBySizeDesc l).filter (fun f => f.size == s) = l.filter (fun f => f.size == s) := by
  induction l with
  | nil => rfl
  | cons x xs ih =>
    simp only [sortBySizeDesc]
    rw [filter_insertDesc, ih, List.filter_cons]
    by_cases h : (x.size == s) <;> simp [h]

theorem mem_dirFiles {path : String} {minB : Nat} {cs : List FSEntry} {f : FileRec}
    (h : f ∈ dirFiles path minB cs) :
    minB < f.size ∧ ∃ rest, f.path = path ++ "/" ++ rest := by
  rw [dirFiles, List.mem_filterMap] at h
  obtain ⟨e, he, hsome⟩ := h
  cases e with
  | file n s =>
    by_cases hs : minB < s
    · simp only [gt_iff_lt, if_pos hs] at hsome
      obtain rfl := Option.some.inj hsome
      exact ⟨hs, n, rfl⟩
    · simp [hs] at hsome
  | dir n cs' => simp at hsome

theorem mem_walkList (rules : List String) (minB : Nat) :
    ∀ (path : String) (es : List FSEntry), ∀ f ∈ walkList rules minB path es,
      minB < f.size ∧ ∃ rest, f.path = path ++ "/" ++ rest := by
  intro path es
  induction path, es using walkList.induct rules minB with
  | case1 path => intro f hf; rw [walkList] at hf; simp at hf
  | case2 path name size es ih => intro f hf; rw [walkList] at hf; exact ih f hf
  | case3 path n cs es ih1 ih2 =>
    intro f hf
    rw [walkList] at hf
    rcases List.mem_append.mp hf with hf1 | hf2
    · by_cases hp : shouldPrune rules (joinPath path n) = true
      · rw [if_pos hp] at hf1; simp at hf1
      · rw [if_neg hp] at hf1
        rcases List.mem_append.mp hf1 with hd | hw
        · obtain ⟨hsz, rest, hrest⟩ := mem_dirFiles hd
          refine ⟨hsz, n ++ "/" ++ rest, ?_⟩
          rw [hrest]
          simp [joinPath, String.append_assoc]
        · obtain ⟨hsz, rest, hrest⟩ := ih1 f hw
          refine ⟨hsz, n ++ "/" ++ rest, ?_⟩
          rw [hrest]
          simp [joinPath, String.append_assoc]
    · exact ih2 f hf2

theorem mem_os_walk_files {rules : List String} {minB : Nat} {start : String}
    {children : List FSEntry} {f : FileRec}
    (h : f ∈ os_walk_files rules minB start children) :
    minB < f.size ∧ ∃ rest, f.path = start ++ "/" ++ rest := by
  rcases List.mem_append.mp h with hd | hw
  · exact mem_dirFiles hd
  · exact mem_walkList rules minB start children f hw

/-- C3 counterexample: the claim says pruning matches on exact path
segments for every rule and directory path. It does not: the directory
`/binaries/Foo` is pruned because `"/binaries/Foo".startswith("/bin")`
holds, although `/binaries` is not the path segment `/bin`, so the
segment-based decision the spec describes would keep it. -/
theorem shouldPrune_differs_from_segment_matching :
    shouldPrune (excluded_dirs_prefixes "/Users/u") "/binaries/Foo" = true ∧
    shouldPruneSegments (excluded_dirs_prefixes "/Users/u") "/binaries/Foo" = false := by
  decide

/-- C3 (amended): the pruning decision is plain string-prefix matching
(`startswith`), not exact-path-segment matching. The spec's two examples
still hold — `/Library/Foo` is pruned and `/Libraries/Foo` is not, since
`"/Library"` is not a string prefix of `"/Libraries"` — but prefix and
segment matching diverge on paths such as `/binaries/Foo`, which the rule
`"/bin"` prunes. -/
theorem shouldPrune_is_string_prefix_matching :
    (∀ rules d p, p ∈ rules → strStartsWith d p = true → shouldPrune rules d = true) ∧
    (∀ home, shouldPrune (excluded_dirs_prefixes home) "/Library/Foo" = true) ∧
    shouldPrune (excluded_dirs_prefixes "/Users/u") "/Libraries/Foo" = false ∧
    shouldPrune (excluded_dirs_prefixes "/Users/u") "/binaries/Foo" = true := by
  refine ⟨?_, ?_, by decide, by decide⟩
  · intro rules d p hp hs
    exact List.any_eq_true.mpr ⟨p, hp, hs⟩
  · intro home
    exact List.any_eq_true.mpr ⟨"/Library", by simp [excluded_dirs_prefixes], by decide⟩

/-- C3 witness: the general conjunct of the amended theorem applied at the
rule `"/Library"` of the configured exclusion list and the directory
`/Library/Foo`. -/
theorem shouldPrune_is_string_prefix_matching_witness :
    ("/Library" ∈ excluded_dirs_prefixes "/Users/u" ∧
      strStartsWith "/Library/Foo" "/Library" = true) ∧
    shouldPrune (excluded_dirs_prefixes "/Users/u") "/Library/Foo" = true :=
  ⟨⟨by decide, by decide⟩,
    shouldPrune_is_string_prefix_matching.1 (excluded_dirs_prefixes "/Users/u")
      "/Library/Foo" "/Library" (by decide) (by decide)⟩

/-- C5 counterexample: the parser does not map the *first* recognized
category token of the response — it tests containment in the fixed
priority order red, orange, yellow, green, so `"Color: yellow red"` parses
as Red although yellow is the first recognized token; and when no token is
recognized the reason is not the raw output but the raw output prefixed by
`"AI output unparseable: "`. -/
theorem parse_first_token_counterexample :
    get_file_safety_suggestion (.ok "Color: yellow red\nReason: test") = ("test", "red") ∧
    get_file_safety_suggestion (.ok "Color: blue\nReason: x") =
      ("AI output unparseable: Color: blue\nReason: x", "orange") ∧
    ("AI output unparseable: Color: blue\nReason: x" : String) ≠ "Color: blue\nReason: x" := by
  decide

/-- C5 (amended): the parser selects the risk level by testing substring
containment of the category tokens in the fixed priority order red,
orange, yellow, green (case-insensitive) against the text of the first
`Color:` line; when `Color:`/`Reason:` lines are present but no token is
recognized, the result is the Orange sentinel with reason
`"AI output unparseable: "` followed by the raw output (and
`"AI output format mismatch: "` when the two lines are missing); the
well-formed response `"Color: Green" / "Reason: test"` yields Green with
reason `"test"`. In every case the resulting level is one of the four
categories. -/
theorem parse_priority_order_behavior :
    (∀ resp, (get_file_safety_suggestion resp).2 = "red" ∨
      (get_file_safety_suggestion resp).2 = "orange" ∨
      (get_file_safety_suggestion resp).2 = "yellow" ∨
      (get_file_safety_suggestion resp).2 = "green") ∧
    get_file_safety_suggestion (.ok "Color: Green\nReason: test") = ("test", "green") ∧
    get_file_safety_suggestion (.ok "Color: yellow red\nReason: test") = ("test", "red") ∧
    get_file_safety_suggestion (.ok "Color: green orange\nReason: r") = ("r", "orange") ∧
    get_file_safety_suggestion (.ok "Color: blue\nReason: x") =
      ("AI output unparseable: Color: blue\nReason: x", "orange") ∧
    get_file_safety_suggestion (.ok "nonsense") =
      ("AI output format mismatch: nonsense", "orange") := by
  refine ⟨?_, by decide, by decide, by decide, by decide, by decide⟩
  intro resp
  cases resp with
  | error e => simp [get_file_safety_suggestion]
  | ok raw =>
    simp only [get_file_safety_suggestion]
    split
    · split_ifs <;> simp
    · simp

/-- C9: `space_liberated` is monotonically non-decreasing across every
operation of a run — each delete handler (bulk and individual) only ever
adds the non-negative freed byte count — and the only operation that
decreases it is the start of a new scan, which resets it to zero. -/
theorem space_liberated_monotone :
    (∀ ex trashOp st, st.space_liberated ≤ (bulk_delete ex trashOp st).space_liberated) ∧
    (∀ trashOp i st, st.space_liberated ≤ (individual_delete trashOp i st).space_liberated) ∧
    (∀ home scan_path children num_files min_size_mb st,
      (start_scan home scan_path children num_files min_size_mb st).space_liberated = 0) := by
  refine ⟨?_, ?_, fun _ _ _ _ _ _ => rfl⟩
  · intro ex trashOp st
    unfold bulk_delete
    split
    · exact Nat.le_refl _
    · dsimp only
      split <;> exact Nat.le_add_right _ _
  · intro trashOp i st
    unfold individual_delete
    cases st.scanned_files[i]? with
    | none => exact Nat.le_refl _
    | some f =>
      dsimp only
      rcases h : delete_file_to_trash trashOp f.path with ⟨b, m, sz⟩
      cases b
      · exact Nat.le_refl _
      · exact Nat.le_add_right _ _

/-- C2 (the code diverges from it): after a successful bulk trash of path
`"a"` — with trashing of the also-selected path `"b"` failing — the
successfully trashed `"a"` is *still present* in the working
`scanned_files` and the failed `"b"` has been *removed* from it. The
handler discards successfully trashed paths from `selected_files` first
(line 441) and then keeps exactly the entries whose path is *not* in
`selected_files` (lines 457-461), which inverts the re-filter relative to
its own comment "Re-filter scanned_files to remove deleted ones". The
selection ledger itself ends up correct (`["b"]`), and the freed bytes are
accumulated. -/
theorem bulk_delete_keeps_trashed_entry :
    ("a" ∈ (bulk_delete (fun _ => true)
        (fun p => if p = "a" then .ok 100 else .error "Error: permission denied")
        ⟨[⟨"a", 100, none, none⟩, ⟨"b", 50, none, none⟩], ["a", "b"], 0⟩).scanned_files.map
          (fun f => f.path)) ∧
    ("b" ∉ (bulk_delete (fun _ => true)
        (fun p => if p = "a" then .ok 100 else .error "Error: permission denied")
        ⟨[⟨"a", 100, none, none⟩, ⟨"b", 50, none, none⟩], ["a", "b"], 0⟩).scanned_files.map
          (fun f => f.path)) ∧
    (bulk_delete (fun _ => true)
        (fun p => if p = "a" then .ok 100 else .error "Error: permission denied")
        ⟨[⟨"a", 100, none, none⟩, ⟨"b", 50, none, none⟩], ["a", "b"], 0⟩).selected_files =
      ["b"] ∧
    (bulk_delete (fun _ => true)
        (fun p => if p = "a" then .ok 100 else .error "Error: permission denied")
        ⟨[⟨"a", 100, none, none⟩, ⟨"b", 50, none, none⟩], ["a", "b"], 0⟩).space_liberated =
      100 := by
  decide

/-- C1 counterexample: completion order does change the output order.
With the ranked input `[a (size 2), b (size 1)]`, both files existing, and
the completion order `[b, a]` (a permutation of the dispatched futures),
the collected output differs from the input rank order. -/
theorem analysis_order_depends_on_completion :
    (([⟨"b", 1, none, none⟩, ⟨"a", 2, none, none⟩] : List FileRec).Perm
      (dispatched (fun _ => true) [⟨"a", 2, none, none⟩, ⟨"b", 1, none, none⟩])) ∧
    analyzed_files (fun _ => .ok "Color: Green\nReason: ok")
        [⟨"b", 1, none, none⟩, ⟨"a", 2, none, none⟩] ≠
      (dispatched (fun _ => true) [⟨"a", 2, none, none⟩, ⟨"b", 1, none, none⟩]).map
        (annotateFile (fun _ => .ok "Color: Green\nReason: ok")) := by
  decide

/-- C1 (amended): the classification stage returns the dispatched entries
in completion order, so the output is a permutation of the annotated
dispatched entries — the same entries, each correlated with its own
annotation via the future-to-dict identity map — but the rank order of the
output is the completion order, not the input order. -/
theorem analysis_completion_order_perm (oracle : String → Except String String)
    (ex : String → Bool) (files completed : List FileRec)
    (hperm : completed.Perm (dispatched ex files)) :
    (analyzed_files oracle completed).Perm
      ((dispatched ex files).map (annotateFile oracle)) :=
  hperm.map (annotateFile oracle)

/-- C1 witness: the amended theorem at the concrete scrambled completion
order `[b, a]` of the dispatched order `[a, b]`. -/
theorem analysis_completion_order_perm_witness :
    (([⟨"b", 1, none, none⟩, ⟨"a", 2, none, none⟩] : List FileRec).Perm
      (dispatched (fun _ => true) [⟨"a", 2, none, none⟩, ⟨"b", 1, none, none⟩])) ∧
    (analyzed_files (fun _ => .ok "Color: Green\nReason: ok")
        [⟨"b", 1, none, none⟩, ⟨"a", 2, none, none⟩]).Perm
      ((dispatched (fun _ => true) [⟨"a", 2, none, none⟩, ⟨"b", 1, none, none⟩]).map
        (annotateFile (fun _ => .ok "Color: Green\nReason: ok"))) :=
  ⟨by decide,
    analysis_completion_order_perm (fun _ => .ok "Color: Green\nReason: ok")
      (fun _ => true) [⟨"a", 2, none, none⟩, ⟨"b", 1, none, none⟩]
      [⟨"b", 1, none, none⟩, ⟨"a", 2, none, none⟩] (by decide)⟩

/-- C4 counterexample: an entry whose file has vanished before dispatch
(`ex "a" = false`) is skipped by `continue` and does not appear in the
classification output at all — there is no "unavailable" sentinel entry;
the output consists of the other entry only. -/
theorem vanished_entry_silently_dropped :
    (dispatched (fun p => p != "a") [⟨"a", 5, none, none⟩, ⟨"b", 3, none, none⟩]).map
        (fun f => f.path) = ["b"] ∧
    (analyzed_files (fun _ => .ok "Color: Green\nReason: ok")
        (dispatched (fun p => p != "a") [⟨"a", 5, none, none⟩, ⟨"b", 3, none, none⟩])).map
        (fun f => f.path) = ["b"] := by
  decide

/-- C4 (amended): an entry whose file no longer exists at dispatch time is
not submitted to the oracle and is silently dropped: every entry of the
classification output passed the existence re-check, and the output
contains exactly the dispatched (still-existing) entries — vanished
entries are absent, with no sentinel annotation. -/
theorem analysis_skips_vanished_entries (ex : String → Bool)
    (oracle : String → Except String String) (files completed : List FileRec)
    (hperm : completed.Perm (dispatched ex files)) :
    (∀ f ∈ analyzed_files oracle completed, ex f.path = true) ∧
    (analyzed_files oracle completed).length = (dispatched ex files).length := by
  constructor
  · intro f hf
    rw [analyzed_files, List.mem_map] at hf
    obtain ⟨g, hg, rfl⟩ := hf
    have hg' : g ∈ files.filter (fun f => ex f.path) := hperm.mem_iff.mp hg
    have hgx : ex g.path = true := by simpa using List.of_mem_filter hg'
    exact hgx
  · rw [analyzed_files, List.length_map]
    exact hperm.length_eq

/-- C4 witness: the amended theorem at a concrete input where file `"a"`
has vanished and file `"b"` still exists. -/
theorem analysis_skips_vanished_entries_witness :
    ((dispatched (fun p => p != "a") [⟨"a", 5, none, none⟩, ⟨"b", 3, none, none⟩]).Perm
      (dispatched (fun p => p != "a") [⟨"a", 5, none, none⟩, ⟨"b", 3, none, none⟩])) ∧
    ((∀ f ∈ analyzed_files (fun _ => .ok "Color: Green\nReason: ok")
        (dispatched (fun p => p != "a") [⟨"a", 5, none, none⟩, ⟨"b", 3, none, none⟩]),
        (fun p => p != "a") f.path = true) ∧
      (analyzed_files (fun _ => .ok "Color: Green\nReason: ok")
        (dispatched (fun p => p != "a") [⟨"a", 5, none, none⟩, ⟨"b", 3, none, none⟩])).length =
        (dispatched (fun p => p != "a") [⟨"a", 5, none, none⟩, ⟨"b", 3, none, none⟩]).length) :=
  ⟨by decide,
    analysis_skips_vanished_entries (fun p => p != "a")
      (fun _ => .ok "Color: Green\nReason: ok")
      [⟨"a", 5, none, none⟩, ⟨"b", 3, none, none⟩]
      (dispatched (fun p => p != "a") [⟨"a", 5, none, none⟩, ⟨"b", 3, none, none⟩])
      (by decide)⟩

theorem append_ne_empty (a b : String) (h : a ≠ "") : a ++ b ≠ "" := by
  intro hc
  apply h
  rw [String.ext_iff] at hc ⊢
  rw [String.data_append] at hc
  exact (List.append_eq_nil.mp hc).1

theorem parse_of_malformed (raw : String) (h : responseMalformed raw = true) :
    (get_file_safety_suggestion (.ok raw)).2 = "orange" ∧
    (get_file_safety_suggestion (.ok raw)).1 ≠ "" := by
  rw [responseMalformed] at h
  rw [get_file_safety_suggestion]
  rcases h1 : (strLines (strTrim raw)).find? (fun l => strStartsWith l "Color:") with _ | lc <;>
    rcases h2 : (strLines (strTrim raw)).find? (fun l => strStartsWith l "Reason:") with _ | lr <;>
    simp only [h1, h2, Option.map_none', Option.map_some'] at h ⊢
  · exact ⟨by simp, append_ne_empty _ _ (by decide)⟩
  · exact ⟨by simp, append_ne_empty _ _ (by decide)⟩
  · exact ⟨by simp, append_ne_empty _ _ (by decide)⟩
  · simp only [Bool.or_eq_true, Bool.and_eq_true, Bool.not_eq_true',
      decide_eq_true_eq] at h
    split_ifs with hf1 hf2 hf3 hf4 hf5
    · exact ⟨by simp, append_ne_empty _ _ (by decide)⟩
    · exfalso
      simp only [Bool.or_eq_true, decide_eq_true_eq, not_or] at hf1
      rcases h with (hc | hr') | htok
      · exact hf1.1 hc
      · exact hf1.2 hr'
      · simp [hf2] at htok
    · exfalso
      simp only [Bool.or_eq_true, decide_eq_true_eq, not_or] at hf1
      rcases h with (hc | hr') | htok
      · exact hf1.1 hc
      · exact hf1.2 hr'
      · simp [hf3] at htok
    · exfalso
      simp only [Bool.or_eq_true, decide_eq_true_eq, not_or] at hf1
      rcases h with (hc | hr') | htok
      · exact hf1.1 hc
      · exact hf1.2 hr'
      · simp [hf4] at htok
    · exfalso
      simp only [Bool.or_eq_true, decide_eq_true_eq, not_or] at hf1
      rcases h with (hc | hr') | htok
      · exact hf1.1 hc
      · exact hf1.2 hr'
      · simp [hf5] at htok
    · exact ⟨by simp, append_ne_empty _ _ (by decide)⟩

/-- C6: for every oracle (failures may hit only some entries), every
entry whose oracle invocation fails — the call raises or times out
(outcome `.error`), or returns malformed output from which no category
can be parsed — ends up in the output with the Orange risk level and a
non-empty failure reason; and a failure never aborts the batch: the
output has exactly one entry per dispatched entry, and every dispatched
entry (failing or not) appears, annotated, in the output. -/
theorem oracle_failure_orange_and_batch_completes (ex : String → Bool)
    (oracle : String → Except String String) (files completed : List FileRec)
    (hperm : completed.Perm (dispatched ex files)) :
    (∀ f ∈ analyzed_files oracle completed,
      oracleInvocationFails (oracle f.path) = true →
      f.color_code = some "orange" ∧ ∃ s, f.ai_suggestion = some s ∧ s ≠ "") ∧
    (analyzed_files oracle completed).length = (dispatched ex files).length ∧
    (∀ g ∈ dispatched ex files, annotateFile oracle g ∈ analyzed_files oracle completed) := by
  refine ⟨?_, ?_, ?_⟩
  · intro f hf hfail
    rw [analyzed_files, List.mem_map] at hf
    obtain ⟨g, hg, rfl⟩ := hf
    have hfail' : oracleInvocationFails (oracle g.path) = true := hfail
    cases ho : oracle g.path with
    | error e =>
        refine ⟨by simp [annotateFile, ho, get_file_safety_suggestion],
          ⟨"Gemini API Error: " ++ e ++ ". Defaulting to uncertain.",
            by simp [annotateFile, ho, get_file_safety_suggestion],
            append_ne_empty _ _ (append_ne_empty _ _ (by decide))⟩⟩
    | ok raw =>
        rw [ho] at hfail'
        simp only [oracleInvocationFails] at hfail'
        obtain ⟨hcol, hsug⟩ := parse_of_malformed raw hfail'
        constructor
        · simp [annotateFile, ho, hcol]
        · exact ⟨(get_file_safety_suggestion (.ok raw)).1,
            by simp [annotateFile, ho], hsug⟩
  · rw [analyzed_files, List.length_map]
    exact hperm.length_eq
  · intro g hgd
    exact List.mem_map_of_mem _ (hperm.mem_iff.mpr hgd)

/-- C6 witness: the theorem at a concrete mixed batch — `a` raises
`"boom"`, `b` returns a well-formed Green response, `c` returns the
malformed text `"garbage"` — collected in the scrambled completion order
`[c, b, a]`. -/
theorem oracle_failure_orange_and_batch_completes_witness :
    (([⟨"c", 1, none, none⟩, ⟨"b", 2, none, none⟩, ⟨"a", 3, none, none⟩] : List FileRec).Perm
      (dispatched (fun _ => true)
        [⟨"a", 3, none, none⟩, ⟨"b", 2, none, none⟩, ⟨"c", 1, none, none⟩])) ∧
    ((∀ f ∈ analyzed_files
        (fun p => if p = "a" then Except.error "boom"
          else if p = "b" then Except.ok "Color: Green\nReason: ok" else Except.ok "garbage")
        [⟨"c", 1, none, none⟩, ⟨"b", 2, none, none⟩, ⟨"a", 3, none, none⟩],
      oracleInvocationFails
          ((fun p => if p = "a" then Except.error "boom"
            else if p = "b" then Except.ok "Color: Green\nReason: ok" else Except.ok "garbage")
            f.path) = true →
      f.color_code = some "orange" ∧ ∃ s, f.ai_suggestion = some s ∧ s ≠ "") ∧
    (analyzed_files
        (fun p => if p = "a" then Except.error "boom"
          else if p = "b" then Except.ok "Color: Green\nReason: ok" else Except.ok "garbage")
        [⟨"c", 1, none, none⟩, ⟨"b", 2, none, none⟩, ⟨"a", 3, none, none⟩]).length =
      (dispatched (fun _ => true)
        [⟨"a", 3, none, none⟩, ⟨"b", 2, none, none⟩, ⟨"c", 1, none, none⟩]).length ∧
    (∀ g ∈ dispatched (fun _ => true)
        [⟨"a", 3, none, none⟩, ⟨"b", 2, none, none⟩, ⟨"c", 1, none, none⟩],
      annotateFile
          (fun p => if p = "a" then Except.error "boom"
            else if p = "b" then Except.ok "Color: Green\nReason: ok" else Except.ok "garbage")
          g ∈ analyzed_files
        (fun p => if p = "a" then Except.error "boom"
          else if p = "b" then Except.ok "Color: Green\nReason: ok" else Except.ok "garbage")
        [⟨"c", 1, none, none⟩, ⟨"b", 2, none, none⟩, ⟨"a", 3, none, none⟩])) :=
  ⟨by decide,
    oracle_failure_orange_and_batch_completes (fun _ => true)
      (fun p => if p = "a" then Except.error "boom"
        else if p = "b" then Except.ok "Color: Green\nReason: ok" else Except.ok "garbage")
      [⟨"a", 3, none, none⟩, ⟨"b", 2, none, none⟩, ⟨"c", 1, none, none⟩]
      [⟨"c", 1, none, none⟩, ⟨"b", 2, none, none⟩, ⟨"a", 3, none, none⟩] (by decide)⟩

/-- C7: for every directory tree, the scanner's returned sequence is
sorted in descending order of size, and the entries of any fixed size
appear as a prefix of the equal-size entries of the walk in
first-encountered-during-walk order — the sort is stable, so two scans of
an unchanged tree return identical sequences (the output is a pure
function of the tree). -/
theorem scanner_sorted_and_stable (home start : String) (children : List FSEntry)
    (k m : Nat) :
    ((get_biggest_files home start children k m).Pairwise fun a b => b.size ≤ a.size) ∧
    ∀ s, (get_biggest_files home start children k m).filter (fun f => f.size == s) <+:
      (os_walk_files (excluded_dirs_prefixes home) (m * 1024 * 1024) start children).filter
        (fun f => f.size == s) := by
  constructor
  · have hs := sortBySizeDesc_sorted
      (os_walk_files (excluded_dirs_prefixes home) (m * 1024 * 1024) start children)
    exact List.Pairwise.sublist (List.take_sublist _ _) hs
  · intro s
    have h1 : (sortBySizeDesc (os_walk_files (excluded_dirs_prefixes home)
        (m * 1024 * 1024) start children)).take k <+:
        sortBySizeDesc (os_walk_files (excluded_dirs_prefixes home)
          (m * 1024 * 1024) start children) := List.take_prefix _ _
    have h2 := h1.filter (fun f => f.size == s)
    rw [sortBySizeDesc_filter] at h2
    exact h2

/-- C8: every record the scanner returns has size strictly greater than
the configured threshold (given in MB, converted to bytes) and its path
lies under the scan root. -/
theorem scanner_size_and_root (home start : String) (children : List FSEntry)
    (k m : Nat) :
    ∀ f ∈ get_biggest_files home start children k m,
      m * 1024 * 1024 < f.size ∧ ∃ rest, f.path = start ++ "/" ++ rest := by
  intro f hf
  have h1 : f ∈ sortBySizeDesc (os_walk_files (excluded_dirs_prefixes home)
      (m * 1024 * 1024) start children) := List.take_subset _ _ hf
  have h2 := (sortBySizeDesc_perm _).mem_iff.mp h1
  exact mem_os_walk_files h2

/-- C8 witness: the theorem at a one-file tree under root `/r` with the
default 50 MB threshold and a 100 MB file. -/
theorem scanner_size_and_root_witness :
    ((⟨"/r/a", 104857600, none, none⟩ : FileRec) ∈
      get_biggest_files "/Users/u" "/r" [.file "a" 104857600] 50 50) ∧
    (50 * 1024 * 1024 < (104857600 : Nat) ∧
      ∃ rest, ("/r/a" : String) = "/r" ++ "/" ++ rest) :=
  ⟨by simp only [get_biggest_files, os_walk_files, walkList]; decide,
    scanner_size_and_root "/Users/u" "/r" [.file "a" 104857600] 50 50
      ⟨"/r/a", 104857600, none, none⟩
      (by simp only [get_biggest_files, os_walk_files, walkList]; decide)⟩

/-- C10: the exclusion rules are applied only to subdirectories
encountered during the walk, never to the scan root itself: even when the
root matches an exclusion rule, its direct qualifying files are in the
walk output; concretely, scanning `/Library` (which matches the rule
`"/Library"`) still returns its qualifying file. -/
theorem scan_root_never_pruned (rules : List String) (minB : Nat) (start : String)
    (children : List FSEntry) (hmatch : shouldPrune rules start = true) :
    (∀ f ∈ dirFiles start minB children, f ∈ os_walk_files rules minB start children) ∧
    get_biggest_files "/Users/u" "/Library" [.file "big.mov" 104857600] 50 50 =
      [⟨"/Library/big.mov", 104857600, none, none⟩] := by
  constructor
  · intro f hf
    exact List.mem_append_left _ hf
  · simp only [get_biggest_files, os_walk_files, walkList]
    decide

/-- C10 witness: the theorem applied with the configured exclusion list,
root `/Library` (which the rule `"/Library"` matches) and a direct 100 MB
file, which therefore appears in the walk output. -/
theorem scan_root_never_pruned_witness :
    shouldPrune (excluded_dirs_prefixes "/Users/u") "/Library" = true ∧
    ((⟨"/Library/big.mov", 104857600, none, none⟩ : FileRec) ∈
      dirFiles "/Library" 52428800 [.file "big.mov" 104857600]) ∧
    ((⟨"/Library/big.mov", 104857600, none, none⟩ : FileRec) ∈
      os_walk_files (excluded_dirs_prefixes "/Users/u") 52428800 "/Library"
        [.file "big.mov" 104857600]) :=
  ⟨by decide, by decide,
    (scan_root_never_pruned (excluded_dirs_prefixes "/Users/u") 52428800 "/Library"
      [.file "big.mov" 104857600] (by decide)).1 _ (by decide)⟩
